import Mathlib

/-!
Verification of the orchestration core of the flight-agent repository.

The development shallowly embeds the two agent programs of the repository:

* flight_agent.py — the terminal-driven LangGraph agent: its conversation
  state machine (chatbot / human / tools nodes with conditional routing),
  quit detection, and the cancel_hold tool.
* f_agent.py — the Streamlit agent: its rate-limited LLM wrapper,
  FlightTools.search_flights, the chat and search graph nodes, routing,
  and process_streamlit_input.

External collaborators (the Amadeus backend and the reasoning service) are
modelled as oracle functions passed in as parameters; where a claim depends
on the documented contract of an external collaborator, the contract is the
one stated in the specification's external-interfaces section.
-/

/-- Python str.strip() produces the empty string exactly when every character
of the string is whitespace; this models truthiness of the stripped string. -/
def strBlank (s : String) : Bool := s.toList.all (fun c => c.isWhitespace)

namespace FlightAgent

/-- A tool-invocation request carried by an AI message: tool name plus the
correlation identifier. -/
structure ToolCall where
  name : String
  id : String
deriving DecidableEq

/-- Conversation messages of flight_agent.py, a tagged variant over the
LangChain message classes used there. -/
inductive Msg where
  | system (content : String)
  | human (content : String)
  | ai (content : String) (tool_calls : List ToolCall)
  | tool (content : String) (name : String) (tool_call_id : String)
deriving DecidableEq

/-- FlightBookingState from flight_agent.py: the running message history and
the finished flag. -/
structure FlightBookingState where
  messages : List Msg
  finished : Bool
deriving DecidableEq

/-- The fixed quit-token set of human_node. -/
def quitTokens : List String := ["q", "quit", "exit", "goodbye"]

def isQuit (u : String) : Bool := quitTokens.contains u

/-- human_node: append the raw user text as a user message; if it is a quit
token, flag the conversation as finished. (The node also prints the previous
assistant message, which has no effect on the state.) -/
def human_node (state : FlightBookingState) (user_input : String) :
    FlightBookingState :=
  { messages := state.messages ++ [Msg.human user_input],
    finished := if isQuit user_input then true else state.finished }

/-- The routing outcomes of maybe_exit_human_node. -/
inductive HumanRoute where
  | chatbot
  | toEnd
deriving DecidableEq

/-- maybe_exit_human_node: route to the chatbot unless the finished flag is
set, in which case go to the END node. -/
def maybe_exit_human_node (state : FlightBookingState) : HumanRoute :=
  if state.finished then HumanRoute.toEnd else HumanRoute.chatbot

/-- The routing outcomes of maybe_route_to_tools. -/
inductive ToolsRoute where
  | tools
  | human
deriving DecidableEq

/-- Tool calls attached to a message; non-AI messages have none (the Python
hasattr check fails for them). -/
def msgToolCalls : Msg → List ToolCall
  | Msg.ai _ tcs => tcs
  | _ => []

/-- maybe_route_to_tools: raise (modelled as Except.error) when the message
list is empty; otherwise go to the tools node when the latest message carries
one or more tool calls, else to the human node. -/
def maybe_route_to_tools (state : FlightBookingState) :
    Except String ToolsRoute :=
  match state.messages.getLast? with
  | none => Except.error "No messages found when parsing state"
  | some msg =>
      if 0 < (msgToolCalls msg).length then Except.ok ToolsRoute.tools
      else Except.ok ToolsRoute.human

def WELCOME_MSG : String := "Welcome to FlightAgent! how can I help you today?"

/-- The fixed system-instruction message prepended on each reasoning call
(FLIGHTAGENT_SYSINT); its instructional text is not load-bearing here. -/
def FLIGHTAGENT_SYSINT : Msg :=
  Msg.system "You are FlightAgent, a real flight booking assistant with live flight data access."

/-- chatbot_with_tools: when history is nonempty, invoke the reasoning
service (an oracle here) on the system instruction plus the history and
append its answer; otherwise append the fixed welcome message. -/
def chatbot_with_tools (llm : List Msg → Msg) (state : FlightBookingState) :
    FlightBookingState :=
  if state.messages.isEmpty then
    { state with messages := state.messages ++ [Msg.ai WELCOME_MSG []] }
  else
    { state with
        messages :=
          state.messages ++ [llm (FLIGHTAGENT_SYSINT :: state.messages)] }

/-- The prebuilt tools node: execute every tool call of the latest message
(each execution is an oracle producing one result message) and append the
results in request order. -/
def tool_node (exec : ToolCall → Msg) (state : FlightBookingState) :
    FlightBookingState :=
  { state with
      messages :=
        state.messages ++
          (msgToolCalls ((state.messages.getLast?).getD (Msg.ai "" []))).map
            exec }

/-- The graph positions: the three nodes, the END node, and a crashed
position for the ValueError branch of maybe_route_to_tools. -/
inductive Node where
  | chatbot
  | human
  | tools
  | terminal
  | crashed
deriving DecidableEq

structure Config where
  node : Node
  state : FlightBookingState
deriving DecidableEq

/-- One node execution of the compiled graph, including the conditional edge
leaving the executed node. The user input is consumed only at the human
node; the reasoning and tool oracles are consulted only at their nodes. -/
def stepFA (llm : List Msg → Msg) (exec : ToolCall → Msg) (u : String)
    (c : Config) : Config :=
  match c.node with
  | Node.chatbot =>
      let st := chatbot_with_tools llm c.state
      match maybe_route_to_tools st with
      | Except.error _ => ⟨Node.crashed, st⟩
      | Except.ok ToolsRoute.tools => ⟨Node.tools, st⟩
      | Except.ok ToolsRoute.human => ⟨Node.human, st⟩
  | Node.human =>
      let st := human_node c.state u
      match maybe_exit_human_node st with
      | HumanRoute.toEnd => ⟨Node.terminal, st⟩
      | HumanRoute.chatbot => ⟨Node.chatbot, st⟩
  | Node.tools => ⟨Node.chatbot, tool_node exec c.state⟩
  | Node.terminal => c
  | Node.crashed => c

/-- The entry configuration: graph.invoke is called on an empty message list
with the finished flag absent, defaulting to false. -/
def initConfig : Config := ⟨Node.chatbot, ⟨[], false⟩⟩

/-- The run of the machine driven by a stream of user inputs (consumed one
per step, used only at human nodes). -/
def runFA (llm : List Msg → Msg) (exec : ToolCall → Msg)
    (users : Nat → String) : Nat → Config
  | 0 => initConfig
  | n + 1 => stepFA llm exec (users n) (runFA llm exec users n)

/-- Search parameters built by the search_flights tool of flight_agent.py;
returnDate and nonStop are present only for round trips. -/
structure RawSearchParams where
  originLocationCode : String
  destinationLocationCode : String
  departureDate : String
  adults : Nat
  returnDate : Option String
  nonStop : Bool
deriving DecidableEq

/-- Result of the search_flights tool of flight_agent.py: the raw backend
response data, or an error text. -/
inductive RawSearchResult where
  | data (offers : List String)
  | errText (s : String)
deriving DecidableEq

/-- search_flights of flight_agent.py: builds the parameter set (forcing
nonStop only when a return date is given), issues the backend search, and
returns response.data unchanged on success — even when it is empty. Offers
are opaque here (the function does not inspect them). -/
def search_flights_raw (api : RawSearchParams → Except String (List String))
    (departure destination date : String) (passengers : Nat)
    (return_date : Option String) : RawSearchResult :=
  let params : RawSearchParams :=
    ⟨departure, destination, date, passengers, return_date, return_date.isSome⟩
  match api params with
  | Except.ok d => RawSearchResult.data d
  | Except.error e => RawSearchResult.errText ("Error searching flights: " ++ e)

/-- Modelled from the spec: the backend order-deletion collaborator of the
external-interfaces section — request is a hold or order identifier,
response is success/no-op. Every copy of the identifier leaves the held set;
deleting an absent identifier is a no-op success, never an error. -/
def flight_orders_delete (held : List String) (flight_id : String) :
    List String × Except String Unit :=
  (held.filter (fun h => h != flight_id), Except.ok ())

/-- cancel_hold of flight_agent.py: issues one deletion call; success yields
the fixed confirmation text, a ResponseError would be reported as an error
text. Returns the tool reply and the backend held set after the call. -/
def cancel_hold (held : List String) (flight_id : String) :
    String × List String :=
  match flight_orders_delete held flight_id with
  | (held2, Except.ok _) => ("Hold cancelled successfully", held2)
  | (held2, Except.error e) => ("Error cancelling hold: " ++ e, held2)

end FlightAgent

namespace FAgent

/-- Config.REQUEST_DELAY of f_agent.py: seconds between requests. -/
def REQUEST_DELAY : Nat := 6

/-- Config.MAX_REQUESTS_PER_MINUTE of f_agent.py. -/
def MAX_REQUESTS_PER_MINUTE : Nat := 10

/-- The mutable fields of RateLimitedLLM: the wall-clock time of the last
admitted call and the running call counter. -/
structure RLState where
  last_call_time : Nat
  call_count : Nat
deriving DecidableEq

/-- One pass through RateLimitedLLM.invoke at request time req: first sleep
until at least REQUEST_DELAY after the last call; then, if the counter has
reached MAX_REQUESTS_PER_MINUTE, sleep a further 60 seconds and zero the
counter; finally record the admit time and bump the counter. Returns the
admit time (when the underlying service call is issued) and the new state. -/
def rlStep (s : RLState) (req : Nat) : Nat × RLState :=
  if MAX_REQUESTS_PER_MINUTE ≤ s.call_count then
    (max req (s.last_call_time + REQUEST_DELAY) + 60,
     ⟨max req (s.last_call_time + REQUEST_DELAY) + 60, 1⟩)
  else
    (max req (s.last_call_time + REQUEST_DELAY),
     ⟨max req (s.last_call_time + REQUEST_DELAY), s.call_count + 1⟩)

/-- A sequential run of the limiter: the caller blocks, so request i+1
arrives a nonnegative gap after admit i (and hence after the recorded
last_call_time). Returns the list of admit times. -/
def rlRun (s : RLState) : List Nat → List Nat
  | [] => []
  | g :: gs =>
      let p := rlStep s (s.last_call_time + g)
      p.1 :: rlRun p.2 gs

/-- The admit times of a run from the initial state (last_call_time and
call_count both start at zero in RateLimitedLLM.__init__). -/
def rlAdmits (gs : List Nat) : List Nat := rlRun ⟨0, 0⟩ gs

/-- The limiter state after a run. -/
def rlRunState (s : RLState) : List Nat → RLState
  | [] => s
  | g :: gs => rlRunState (rlStep s (s.last_call_time + g)).2 gs

/-- Modelled from the spec: the fixed-window rate-limiting policy that the
specification describes for this limiter (window of 60 seconds; the call
counter resets to zero when the window elapses; a caller finding the counter
at the cap waits out the remainder of the window; the minimum-spacing wait
happens first). Used only to compare against the behaviour implemented by
RateLimitedLLM.invoke. -/
structure FWState where
  window_start : Nat
  count : Nat
  last : Nat
deriving DecidableEq

def fwStep (s : FWState) (req : Nat) : Nat × FWState :=
  if s.window_start + 60 ≤ max req (s.last + REQUEST_DELAY) then
    (max req (s.last + REQUEST_DELAY),
     ⟨max req (s.last + REQUEST_DELAY), 1, max req (s.last + REQUEST_DELAY)⟩)
  else if MAX_REQUESTS_PER_MINUTE ≤ s.count then
    (s.window_start + 60, ⟨s.window_start + 60, 1, s.window_start + 60⟩)
  else
    (max req (s.last + REQUEST_DELAY),
     ⟨s.window_start, s.count + 1, max req (s.last + REQUEST_DELAY)⟩)

def fwRun (s : FWState) : List Nat → List Nat
  | [] => []
  | g :: gs =>
      let p := fwStep s (s.last + g)
      p.1 :: fwRun p.2 gs

def fwAdmits (gs : List Nat) : List Nat := fwRun ⟨0, 0, 0⟩ gs

def fwRunState (s : FWState) : List Nat → FWState
  | [] => s
  | g :: gs => fwRunState (fwStep s (s.last + g)).2 gs

/-- FlightSegment dataclass of f_agent.py (field order as in the formatted
search-result dicts: airline, flight number, origin, destination, departure,
arrival, duration). -/
structure FlightSegment where
  airline : String
  flight_number : String
  origin : String
  destination : String
  departure : String
  arrival : String
  duration : String
deriving DecidableEq

/-- FlightOption dataclass of f_agent.py. -/
structure FlightOption where
  id : String
  price : String
  currency : String
  segments : List FlightSegment
  cabin_class : String
deriving DecidableEq

/-- Arguments of a search_flights tool call as forwarded by the dispatcher. -/
structure SearchArgs where
  origin : String
  destination : String
  departure_date : String
  adults : Nat
  cabin_class : String
deriving DecidableEq

/-- A tool-invocation request carried by an AI message in f_agent.py. -/
structure FToolCall where
  name : String
  id : String
  args : SearchArgs
deriving DecidableEq

/-- The JSON payloads that appear as ToolMessage content. The code only ever
dumps an error object or a count object; the raw offer list is representable
so that the digest-versus-raw contract can be stated. -/
inductive ToolPayload where
  | errorObj (msg : String)
  | countObj (n : Nat)
  | rawList (l : List FlightOption)
deriving DecidableEq

/-- Conversation messages of f_agent.py. -/
inductive FMsg where
  | system (content : String)
  | human (content : String)
  | ai (content : String) (tool_calls : List FToolCall)
  | tool (content : ToolPayload) (name : String) (tool_call_id : String)
deriving DecidableEq

/-- Truthiness of message.content.strip(): blank for whitespace-only text;
a JSON-dumped tool payload is never whitespace-only. -/
def FMsg.contentBlank : FMsg → Bool
  | FMsg.system c => strBlank c
  | FMsg.human c => strBlank c
  | FMsg.ai c _ => strBlank c
  | FMsg.tool _ _ _ => false

/-- BookingState TypedDict of f_agent.py. -/
structure BookingState where
  messages : List FMsg
  search_params : List (String × String)
  flight_options : List FlightOption
  selected_flight : Option FlightOption
  booking_in_progress : Bool
  completed : Bool
deriving DecidableEq

/-- The request sent to the backend flight-offers search (including the max
parameter, fixed at 3 in the code). -/
structure SearchQuery where
  originLocationCode : String
  destinationLocationCode : String
  departureDate : String
  adults : Nat
  travelClass : String
  maxResults : Nat
deriving DecidableEq

/-- A raw segment as it appears in a backend offer. -/
structure ApiSegment where
  carrierCode : String
  number : String
  depIata : String
  depAt : String
  arrIata : String
  arrAt : String
  duration : String
deriving DecidableEq

/-- A raw offer as it appears in the backend search response. -/
structure ApiOffer where
  id : String
  priceTotal : String
  priceCurrency : String
  itineraries : List (List ApiSegment)
  cabinClasses : List String
deriving DecidableEq

/-- Result of FlightTools.search_flights: an error dict or a list of
formatted flight-option dicts. -/
inductive SearchResult where
  | error (msg : String)
  | options (l : List FlightOption)
deriving DecidableEq

/-- The external collaborators consulted by FlightTools.search_flights:
airport-code resolution (its exceptions are folded to none in the source)
and the flight-offers search call (raising is modelled as Except.error). -/
structure SearchOracles where
  airport_code : String → Option String
  flight_offers_search : SearchQuery → Except String (List ApiOffer)

def formatSegment (s : ApiSegment) : FlightSegment :=
  ⟨s.carrierCode, s.number, s.depIata, s.arrIata, s.depAt, s.arrAt, s.duration⟩

/-- Formatting of one offer; none models the index/key error a malformed
offer would raise inside the try block. -/
def formatOffer (o : ApiOffer) : Option FlightOption :=
  match o.itineraries, o.cabinClasses with
  | itin0 :: _, cls0 :: _ =>
      some ⟨o.id, o.priceTotal, o.priceCurrency, itin0.map formatSegment, cls0⟩
  | _, _ => none

/-- The list comprehension of _format_flight_results: the first failure
aborts the whole computation (an exception in the source). -/
def formatFlightResults : List ApiOffer → Option (List FlightOption)
  | [] => some []
  | o :: os =>
      match formatOffer o, formatFlightResults os with
      | some f, some fs => some (f :: fs)
      | _, _ => none

def buildQuery (a : SearchArgs) (oc dc : String) : SearchQuery :=
  ⟨oc, dc, a.departure_date, a.adults, a.cabin_class.toUpper, 3⟩

/-- FlightTools.search_flights: resolve both endpoints, return the
invalid-codes error without a backend search when either resolution fails,
otherwise issue exactly one search; empty data gives the no-flights error,
a raised backend error gives the API-error text, a formatting failure gives
the search-failed text. The second component counts backend search calls. -/
def search_flights_run (env : SearchOracles) (a : SearchArgs) :
    SearchResult × Nat :=
  match env.airport_code a.origin, env.airport_code a.destination with
  | some oc, some dc =>
      (match env.flight_offers_search (buildQuery a oc dc) with
       | Except.error e => (SearchResult.error ("API error: " ++ e), 1)
       | Except.ok [] => (SearchResult.error "No flights found", 1)
       | Except.ok (o :: os) =>
           match formatFlightResults (o :: os) with
           | some l => (SearchResult.options l, 1)
           | none => (SearchResult.error "Search failed: malformed offer", 1))
  | _, _ => (SearchResult.error "Invalid airport codes", 0)

def search_flights (env : SearchOracles) (a : SearchArgs) : SearchResult :=
  (search_flights_run env a).1

/-- One line of _format_flights for the flight at one-based position i,
built from the first segment of the option; the source indexes the segment
list at zero, so an option without segments raises IndexError — modelled as
none. -/
def formatFlightLine (i : Nat) (f : FlightOption) : Option String :=
  match f.segments with
  | [] => none
  | seg :: _ =>
      some (toString i ++ ". " ++ seg.airline ++ " " ++ seg.flight_number ++ " (" ++
        seg.origin ++ "→" ++ seg.destination ++ ") " ++ f.price ++ " " ++ f.currency)

/-- The lines of the generator expression inside _format_flights: the first
option without segments aborts the whole computation, as its uncaught
IndexError would. -/
def formatFlightLines : List (Nat × FlightOption) → Option (List String)
  | [] => some []
  | p :: ps =>
      match formatFlightLine p.1 p.2, formatFlightLines ps with
      | some s, some ss => some (s :: ss)
      | _, _ => none

/-- _format_flights: newline-joined numbered lines, one per option; none
models the IndexError raised on an option with an empty segment list. -/
def formatFlights (flights : List FlightOption) : Option String :=
  (formatFlightLines (List.enumFrom 1 flights)).map (String.intercalate "\n")

/-- The message list _chat_node assembles for the reasoning call: the stored
history with blank-content messages dropped, then (when flight options are
on file and format nonempty) a transient digest AI message, then a default
prompt when the list would otherwise be empty. none models the IndexError
_format_flights raises — before the node's try block — when a stored option
has no segments. -/
def chatInput (st : BookingState) : Option (List FMsg) :=
  let ms := st.messages.filter (fun m => !m.contentBlank)
  let ms2 :=
    if st.flight_options.isEmpty then some ms
    else
      match formatFlights st.flight_options with
      | none => none
      | some ft =>
          if ft = "" then some ms
          else some (ms ++ [FMsg.ai ("Flight options:\n" ++ ft) []])
  match ms2 with
  | none => none
  | some ms3 =>
      some (if ms3.isEmpty then [FMsg.ai "How can I help with your travel plans?" []]
            else ms3)

/-- _chat_node: assemble the input (raising — none — when a stored option
has no segments, since that happens before the try block), then invoke the
reasoning service and append its answer; when the invocation raises, append
the fixed fallback AI message instead. All other state fields are
untouched. -/
def chat_node (llm : List FMsg → Except Unit FMsg) (st : BookingState) :
    Option BookingState :=
  match chatInput st with
  | none => none
  | some input =>
      some
        (match llm input with
         | Except.ok r => { st with messages := st.messages ++ [r] }
         | Except.error _ =>
             { st with
                 messages :=
                   st.messages ++ [FMsg.ai "Let me check that for you..." []] })

/-- The tool calls of the latest message (the dispatcher reads them off
state.messages last element). -/
def lastToolCalls (msgs : List FMsg) : List FToolCall :=
  match msgs.getLast? with
  | some (FMsg.ai _ tcs) => tcs
  | _ => []

/-- The dispatch loop of _search_node over the tool calls of the triggering
message: a call not named search_flights is skipped outright; an error
result appends the dumped error object plus an error AI message; a success
appends a count object and remembers the options (the last success wins).
Returns the outbound messages and the options of the last success, if any. -/
def processToolCalls (impl : SearchArgs → SearchResult) :
    List FToolCall → List FMsg × Option (List FlightOption)
  | [] => ([], none)
  | tc :: rest =>
      if tc.name = "search_flights" then
        match impl tc.args with
        | SearchResult.error e =>
            let p := processToolCalls impl rest
            (FMsg.tool (ToolPayload.errorObj e) tc.name tc.id ::
               FMsg.ai ("Error: " ++ e) [] :: p.1, p.2)
        | SearchResult.options l =>
            let p := processToolCalls impl rest
            (FMsg.tool (ToolPayload.countObj l.length) tc.name tc.id :: p.1,
             match p.2 with
             | some l2 => some l2
             | none => some l)
      else processToolCalls impl rest

/-- _search_node: run the dispatch loop on the latest message's tool calls,
append the outbound messages, and replace flight_options wholesale when some
call succeeded. (The node's sleep against last_tool_use only delays the
call; it has no effect on the resulting state.) -/
def search_node (impl : SearchArgs → SearchResult) (st : BookingState) :
    BookingState :=
  let p := processToolCalls impl (lastToolCalls st.messages)
  { st with
      messages := st.messages ++ p.1,
      flight_options := p.2.getD st.flight_options }

/-- The routing outcomes of _route_based_on_tools: END, the search node, or
back to the chat node. -/
inductive FRoute where
  | endRoute
  | search
  | chat
deriving DecidableEq

def msgFToolCalls : FMsg → List FToolCall
  | FMsg.ai _ tcs => tcs
  | _ => []

def hasSearchToolCall (m : FMsg) : Bool :=
  (msgFToolCalls m).any (fun tc => tc.name = "search_flights")

/-- _route_based_on_tools: END when the completed flag is set; otherwise a
search_flights tool call on the latest message routes to the search node and
anything else routes back to the chat node. none models the IndexError the
source would raise on an empty history. -/
def route_based_on_tools (st : BookingState) : Option FRoute :=
  if st.completed then some FRoute.endRoute
  else
    match st.messages.getLast? with
    | none => none
    | some m =>
        some (if hasSearchToolCall m then FRoute.search else FRoute.chat)

/-- The generator expression of process_streamlit_input: the content of the
latest AI message with non-blank content, if any. -/
def lastNonblankAIContent (msgs : List FMsg) : Option String :=
  msgs.reverse.findSome? (fun m =>
    match m with
    | FMsg.ai c _ => if strBlank c then none else some c
    | _ => none)

/-- The dict shapes process_streamlit_input can return: a full state dict,
or the exception branch's dict that carries only messages and an error
status. -/
inductive PSIResult where
  | full (st : BookingState)
  | errorOnly (messages : List FMsg)
deriving DecidableEq

/-- process_streamlit_input: blank input returns the state untouched without
running the graph; otherwise the user message is appended, the graph is
invoked (an oracle here; raising is modelled as Except.error), and the
result is assembled as in the source. The boolean records whether the graph
was invoked. -/
def process_streamlit_input (graph : BookingState → Except Unit BookingState)
    (user_input : String) (state : BookingState) : PSIResult × Bool :=
  if strBlank user_input then (PSIResult.full state, false)
  else
    let state1 := { state with messages := state.messages ++ [FMsg.human user_input] }
    match graph state1 with
    | Except.ok new_state =>
        (match lastNonblankAIContent new_state.messages with
         | some c =>
             (PSIResult.full
               ⟨state1.messages ++ [FMsg.ai c []], new_state.search_params,
                new_state.flight_options, new_state.selected_flight,
                new_state.booking_in_progress, new_state.completed⟩, true)
         | none => (PSIResult.full state1, true))
    | Except.error _ =>
        (PSIResult.errorOnly
          (state1.messages ++ [FMsg.ai "Please give me a moment and try again." []]),
         true)

/-- Recognizer for AI messages, used to count them in a history. -/
def isAIMsg : FMsg → Bool
  | FMsg.ai _ _ => true
  | _ => false

end FAgent

namespace FlightAgent

lemma chatbot_with_tools_finished (llm : List Msg → Msg)
    (st : FlightBookingState) :
    (chatbot_with_tools llm st).finished = st.finished := by
  unfold chatbot_with_tools
  split <;> rfl

lemma tool_node_finished (exec : ToolCall → Msg) (st : FlightBookingState) :
    (tool_node exec st).finished = st.finished := rfl

lemma stepFA_finished_of_not_quit (llm : List Msg → Msg)
    (exec : ToolCall → Msg) (u : String) (c : Config)
    (hq : isQuit u = false) (hf : c.state.finished = false) :
    (stepFA llm exec u c).state.finished = false := by
  obtain ⟨node, st⟩ := c
  cases node <;> simp only [stepFA]
  · split <;> simp_all [chatbot_with_tools_finished]
  · simp_all [human_node, maybe_exit_human_node]
  · simp_all [tool_node_finished]
  · exact hf
  · exact hf

lemma stepFA_not_terminal (llm : List Msg → Msg) (exec : ToolCall → Msg)
    (u : String) (c : Config) (hq : isQuit u = false)
    (hf : c.state.finished = false) (hn : c.node ≠ Node.terminal) :
    (stepFA llm exec u c).node ≠ Node.terminal := by
  obtain ⟨node, st⟩ := c
  cases node <;> simp only [stepFA]
  · split <;> simp
  · simp_all [human_node, maybe_exit_human_node]
  · simp
  · exact absurd rfl hn
  · simp

lemma runFA_no_quit_invariant (llm : List Msg → Msg) (exec : ToolCall → Msg)
    (users : Nat → String) (h : ∀ n, isQuit (users n) = false) :
    ∀ n, (runFA llm exec users n).node ≠ Node.terminal ∧
      (runFA llm exec users n).state.finished = false := by
  intro n
  induction n with
  | zero => exact ⟨by simp [runFA, initConfig], rfl⟩
  | succ n ih =>
      refine ⟨?_, ?_⟩
      · exact stepFA_not_terminal llm exec (users n) _ (h n) ih.2 ih.1
      · exact stepFA_finished_of_not_quit llm exec (users n) _ (h n) ih.2

end FlightAgent

namespace FAgent

lemma rlStep_admit_ge (s : RLState) (r : Nat) :
    s.last_call_time + REQUEST_DELAY ≤ (rlStep s r).1 := by
  unfold rlStep
  split
  · exact le_trans (Nat.le_max_right _ _) (Nat.le_add_right _ _)
  · exact Nat.le_max_right _ _

lemma rlStep_last_eq (s : RLState) (r : Nat) :
    (rlStep s r).2.last_call_time = (rlStep s r).1 := by
  unfold rlStep
  split <;> rfl

lemma rlStep_count_pos (s : RLState) (r : Nat) :
    1 ≤ (rlStep s r).2.call_count := by
  unfold rlStep
  split <;> simp

lemma rlStep_count_le (s : RLState) (r : Nat) :
    (rlStep s r).2.call_count ≤ MAX_REQUESTS_PER_MINUTE := by
  unfold rlStep
  split
  · simp [MAX_REQUESTS_PER_MINUTE]
  · rename_i hlt
    simp only [MAX_REQUESTS_PER_MINUTE, not_le] at hlt ⊢
    omega

lemma rlStep_reset (s : RLState) (r : Nat)
    (h : MAX_REQUESTS_PER_MINUTE ≤ s.call_count) :
    s.last_call_time + REQUEST_DELAY + 60 ≤ (rlStep s r).1 ∧
      (rlStep s r).2.call_count = 1 := by
  unfold rlStep
  rw [if_pos h]
  exact ⟨by have := Nat.le_max_right r (s.last_call_time + REQUEST_DELAY); omega, rfl⟩

lemma rlStep_no_reset (s : RLState) (r : Nat)
    (h : s.call_count < MAX_REQUESTS_PER_MINUTE) :
    (rlStep s r).2.call_count = s.call_count + 1 := by
  unfold rlStep
  rw [if_neg (by omega)]

/-- Every admit in a run is at least REQUEST_DELAY times its one-based index
after the starting last_call_time. -/
lemma rlRun_advance :
    ∀ (gs : List Nat) (s : RLState) (j : Nat), j < (rlRun s gs).length →
      s.last_call_time + REQUEST_DELAY * (j + 1) ≤ (rlRun s gs).getD j 0 := by
  intro gs
  induction gs with
  | nil => intro s j hj; simp [rlRun] at hj
  | cons g gs ih =>
      intro s j hj
      match j with
      | 0 =>
          simpa [rlRun] using rlStep_admit_ge s (s.last_call_time + g)
      | j + 1 =>
          have hlen : j < (rlRun (rlStep s (s.last_call_time + g)).2 gs).length := by
            simpa [rlRun] using hj
          have h1 := ih (rlStep s (s.last_call_time + g)).2 j hlen
          have h2 := rlStep_admit_ge s (s.last_call_time + g)
          rw [rlStep_last_eq] at h1
          simp only [rlRun, List.getD_cons_succ]
          have : REQUEST_DELAY * (j + 1 + 1) = REQUEST_DELAY + REQUEST_DELAY * (j + 1) := by ring
          omega

/-- Consecutive admits are spaced by at least REQUEST_DELAY. -/
lemma rlRun_spacing :
    ∀ (gs : List Nat) (s : RLState) (i : Nat), i + 1 < (rlRun s gs).length →
      (rlRun s gs).getD i 0 + REQUEST_DELAY ≤ (rlRun s gs).getD (i + 1) 0 := by
  intro gs
  induction gs with
  | nil => intro s i hi; simp [rlRun] at hi
  | cons g gs ih =>
      intro s i hi
      match i with
      | 0 =>
          have hlen : 0 < (rlRun (rlStep s (s.last_call_time + g)).2 gs).length := by
            simpa [rlRun] using hi
          have h1 := rlRun_advance gs (rlStep s (s.last_call_time + g)).2 0 hlen
          rw [rlStep_last_eq] at h1
          simp only [rlRun, List.getD_cons_succ, List.getD_cons_zero]
          omega
      | i + 1 =>
          have hlen : i + 1 < (rlRun (rlStep s (s.last_call_time + g)).2 gs).length := by
            simpa [rlRun] using hi
          simpa [rlRun] using ih (rlStep s (s.last_call_time + g)).2 i hlen

/-- Admits are monotone: a later admit is at least REQUEST_DELAY per step
beyond an earlier one. -/
lemma rlRun_mono :
    ∀ (gs : List Nat) (s : RLState) (i j : Nat), i ≤ j →
      j < (rlRun s gs).length →
      (rlRun s gs).getD i 0 + REQUEST_DELAY * (j - i) ≤ (rlRun s gs).getD j 0 := by
  intro gs
  induction gs with
  | nil => intro s i j _ hj; simp [rlRun] at hj
  | cons g gs ih =>
      intro s i j hij hj
      match i, j with
      | 0, 0 => simp
      | 0, j + 1 =>
          have hlen : j < (rlRun (rlStep s (s.last_call_time + g)).2 gs).length := by
            simpa [rlRun] using hj
          have h1 := rlRun_advance gs (rlStep s (s.last_call_time + g)).2 j hlen
          rw [rlStep_last_eq] at h1
          simp only [rlRun, List.getD_cons_succ, List.getD_cons_zero]
          have : REQUEST_DELAY * (j + 1 - 0) ≤ REQUEST_DELAY * (j + 1) :=
            Nat.mul_le_mul_left _ (by omega)
          omega
      | i + 1, j + 1 =>
          have hlen : j < (rlRun (rlStep s (s.last_call_time + g)).2 gs).length := by
            simpa [rlRun] using hj
          have := ih (rlStep s (s.last_call_time + g)).2 i j (by omega) hlen
          simp only [rlRun, List.getD_cons_succ]
          simpa using this

/-- If the counter plus the number of remaining steps reaches the cap plus
one, a reset occurs among those steps, so the k-th admit is at least
REQUEST_DELAY per step plus a full 60-second wait beyond the start. -/
lemma rlRun_reset_span :
    ∀ (gs : List Nat) (s : RLState) (k : Nat), 1 ≤ k →
      MAX_REQUESTS_PER_MINUTE + 1 ≤ s.call_count + k →
      s.call_count ≤ MAX_REQUESTS_PER_MINUTE →
      k ≤ (rlRun s gs).length →
      s.last_call_time + (REQUEST_DELAY * k + 60) ≤ (rlRun s gs).getD (k - 1) 0 := by
  intro gs
  induction gs with
  | nil => intro s k hk _ _ hlen; simp [rlRun] at hlen; omega
  | cons g gs ih =>
      intro s k hk hcap hle hlen
      by_cases hreset : MAX_REQUESTS_PER_MINUTE ≤ s.call_count
      · obtain ⟨h66, _⟩ := rlStep_reset s (s.last_call_time + g) hreset
        match k with
        | 1 => simpa [rlRun] using h66
        | k + 2 =>
            have hlen' : k < (rlRun (rlStep s (s.last_call_time + g)).2 gs).length := by
              simp only [rlRun, List.length_cons] at hlen
              omega
            have h1 := rlRun_advance gs (rlStep s (s.last_call_time + g)).2 k hlen'
            rw [rlStep_last_eq] at h1
            have hidx : k + 2 - 1 = k + 1 := rfl
            simp only [rlRun, hidx, List.getD_cons_succ]
            have hx : REQUEST_DELAY * (k + 2) = REQUEST_DELAY + REQUEST_DELAY * (k + 1) := by
              ring
            omega
      · have hlt : s.call_count < MAX_REQUESTS_PER_MINUTE := by omega
        have hk2 : 2 ≤ k := by
          simp only [MAX_REQUESTS_PER_MINUTE] at hcap hlt ⊢
          omega
        match k, hk2 with
        | k + 2, _ =>
            have hcount := rlStep_no_reset s (s.last_call_time + g) hlt
            have hlen' : k + 1 ≤ (rlRun (rlStep s (s.last_call_time + g)).2 gs).length := by
              simp only [rlRun, List.length_cons] at hlen
              omega
            have h1 := ih (rlStep s (s.last_call_time + g)).2 (k + 1) (by omega)
              (by omega) (by rw [hcount]; omega) hlen'
            rw [rlStep_last_eq] at h1
            have h2 := rlStep_admit_ge s (s.last_call_time + g)
            simp only [Nat.add_sub_cancel] at h1
            have hidx : k + 2 - 1 = k + 1 := rfl
            simp only [rlRun, hidx, List.getD_cons_succ]
            have hx : REQUEST_DELAY * (k + 2) = REQUEST_DELAY + REQUEST_DELAY * (k + 1) := by
              ring
            omega

/-- Any eleven consecutive admits span at least 120 seconds: among any
MAX_REQUESTS_PER_MINUTE steps at least one waits out the full 60 seconds. -/
lemma rlRun_window_span :
    ∀ (gs : List Nat) (s : RLState) (i : Nat),
      s.call_count ≤ MAX_REQUESTS_PER_MINUTE →
      i + MAX_REQUESTS_PER_MINUTE < (rlRun s gs).length →
      (rlRun s gs).getD i 0 + 120 ≤
        (rlRun s gs).getD (i + MAX_REQUESTS_PER_MINUTE) 0 := by
  intro gs
  induction gs with
  | nil => intro s i _ hi; simp [rlRun] at hi
  | cons g gs ih =>
      intro s i hle hi
      match i with
      | 0 =>
          have hlen : MAX_REQUESTS_PER_MINUTE ≤
              (rlRun (rlStep s (s.last_call_time + g)).2 gs).length := by
            simp only [rlRun, List.length_cons] at hi
            omega
          have h1 := rlRun_reset_span gs (rlStep s (s.last_call_time + g)).2
            MAX_REQUESTS_PER_MINUTE (by simp [MAX_REQUESTS_PER_MINUTE])
            (by have := rlStep_count_pos s (s.last_call_time + g); omega)
            (rlStep_count_le s (s.last_call_time + g)) hlen
          rw [rlStep_last_eq] at h1
          simp only [rlRun, Nat.zero_add, List.getD_cons_zero]
          have hidx : (((rlStep s (s.last_call_time + g)).1 ::
              rlRun (rlStep s (s.last_call_time + g)).2 gs).getD
                MAX_REQUESTS_PER_MINUTE 0) =
              (rlRun (rlStep s (s.last_call_time + g)).2 gs).getD
                (MAX_REQUESTS_PER_MINUTE - 1) 0 := by
            simp [MAX_REQUESTS_PER_MINUTE]
          rw [hidx]
          simp only [MAX_REQUESTS_PER_MINUTE, REQUEST_DELAY] at h1 ⊢
          omega
      | i + 1 =>
          have hlen : i + MAX_REQUESTS_PER_MINUTE <
              (rlRun (rlStep s (s.last_call_time + g)).2 gs).length := by
            simp only [rlRun, List.length_cons] at hi
            omega
          have := ih (rlStep s (s.last_call_time + g)).2 i
            (rlStep_count_le s (s.last_call_time + g)) hlen
          have hidx : i + 1 + MAX_REQUESTS_PER_MINUTE =
              (i + MAX_REQUESTS_PER_MINUTE) + 1 := by omega
          rw [hidx]
          simpa [rlRun] using this

/-- At most MAX_REQUESTS_PER_MINUTE admits fall inside any closed window of
60 seconds, for any run from the initial limiter state. -/
lemma rlAdmits_window_cap (gs : List Nat) (T : Nat) :
    ((Finset.range (rlAdmits gs).length).filter
      (fun i => T ≤ (rlAdmits gs).getD i 0 ∧ (rlAdmits gs).getD i 0 ≤ T + 60)).card
      ≤ MAX_REQUESTS_PER_MINUTE := by
  by_contra hcard
  push_neg at hcard
  set A := rlAdmits gs with hA
  set S := (Finset.range A.length).filter
    (fun i => T ≤ A.getD i 0 ∧ A.getD i 0 ≤ T + 60) with hS
  have hne : S.Nonempty := Finset.card_pos.mp (by omega)
  have hi0 : S.min' hne ∈ S := Finset.min'_mem S hne
  have hi1 : S.max' hne ∈ S := Finset.max'_mem S hne
  set i0 := S.min' hne
  set i1 := S.max' hne
  have hsub : S ⊆ Finset.Icc i0 i1 := fun i hi =>
    Finset.mem_Icc.mpr ⟨Finset.min'_le S i hi, Finset.le_max' S i hi⟩
  have hcard2 : S.card ≤ i1 + 1 - i0 := by
    simpa [Nat.card_Icc] using Finset.card_le_card hsub
  have hgap : i0 + MAX_REQUESTS_PER_MINUTE ≤ i1 := by
    simp only [MAX_REQUESTS_PER_MINUTE] at hcard ⊢
    omega
  obtain ⟨hr0, hb0, _⟩ :
      i0 ∈ Finset.range A.length ∧ T ≤ A.getD i0 0 ∧ A.getD i0 0 ≤ T + 60 := by
    simpa [hS, Finset.mem_filter] using hi0
  obtain ⟨hr1, _, hb1⟩ :
      i1 ∈ Finset.range A.length ∧ T ≤ A.getD i1 0 ∧ A.getD i1 0 ≤ T + 60 := by
    simpa [hS, Finset.mem_filter] using hi1
  have hlen1 : i1 < A.length := Finset.mem_range.mp hr1
  have hspan := rlRun_window_span gs ⟨0, 0⟩ i0 (by simp [MAX_REQUESTS_PER_MINUTE])
    (by simpa [hA, rlAdmits] using lt_of_le_of_lt hgap hlen1)
  have hmono := rlRun_mono gs ⟨0, 0⟩ (i0 + MAX_REQUESTS_PER_MINUTE) i1 hgap
    (by simpa [hA, rlAdmits] using hlen1)
  rw [show rlRun ⟨0, 0⟩ gs = A from rfl] at hspan hmono
  omega

lemma formatFlightResults_length :
    ∀ (os : List ApiOffer) (l : List FlightOption),
      formatFlightResults os = some l → l.length = os.length := by
  intro os
  induction os with
  | nil => intro l h; simp [formatFlightResults] at h; simp [← h]
  | cons o os ih =>
      intro l h
      simp only [formatFlightResults] at h
      cases hf : formatOffer o with
      | none => rw [hf] at h; simp at h
      | some f =>
          rw [hf] at h
          cases hr : formatFlightResults os with
          | none => rw [hr] at h; simp at h
          | some fs =>
              rw [hr] at h
              simp only [Option.some.injEq] at h
              subst h
              simp [ih fs hr]

/-- A successful search never carries an empty option list: the empty
backend response is mapped to the no-flights error first. -/
lemma search_flights_options_ne_nil (env : SearchOracles) (a : SearchArgs)
    (l : List FlightOption) (h : search_flights env a = SearchResult.options l) :
    l ≠ [] := by
  unfold search_flights search_flights_run at h
  cases ho : env.airport_code a.origin with
  | none => rw [ho] at h; simp at h
  | some oc =>
      cases hd : env.airport_code a.destination with
      | none => rw [ho, hd] at h; simp at h
      | some dc =>
          simp only [ho, hd] at h
          cases hs : env.flight_offers_search (buildQuery a oc dc) with
          | error e => simp [hs] at h
          | ok offers =>
              simp only [hs] at h
              cases offers with
              | nil => simp at h
              | cons o os =>
                  cases hfmt : formatFlightResults (o :: os) with
                  | none => simp [hfmt] at h
                  | some l2 =>
                      simp only [hfmt] at h
                      simp only [SearchResult.options.injEq] at h
                      subst h
                      have := formatFlightResults_length (o :: os) l2 hfmt
                      intro hnil
                      rw [hnil] at this
                      simp at this

/-- When every search-named call errors, the dispatch loop remembers no
options. -/
lemma processToolCalls_snd_none (impl : SearchArgs → SearchResult) :
    ∀ (tcs : List FToolCall),
      (∀ tc ∈ tcs, tc.name = "search_flights" →
        ∃ e, impl tc.args = SearchResult.error e) →
      (processToolCalls impl tcs).2 = none := by
  intro tcs
  induction tcs with
  | nil => intro _; rfl
  | cons tc rest ih =>
      intro h
      simp only [processToolCalls]
      by_cases hname : tc.name = "search_flights"
      · obtain ⟨e, he⟩ := h tc (List.mem_cons_self tc rest) hname
        rw [if_pos hname, he]
        exact ih (fun tc2 h2 => h tc2 (List.mem_cons_of_mem tc h2))
      · rw [if_neg hname]
        exact ih (fun tc2 h2 => h tc2 (List.mem_cons_of_mem tc h2))

/-- Options remembered by the dispatch loop come wholesale from a successful
search-named call among the processed calls. -/
lemma processToolCalls_snd_some (impl : SearchArgs → SearchResult) :
    ∀ (tcs : List FToolCall) (l : List FlightOption),
      (processToolCalls impl tcs).2 = some l →
      ∃ tc ∈ tcs, tc.name = "search_flights" ∧
        impl tc.args = SearchResult.options l := by
  intro tcs
  induction tcs with
  | nil => intro l h; simp [processToolCalls] at h
  | cons tc rest ih =>
      intro l h
      simp only [processToolCalls] at h
      by_cases hname : tc.name = "search_flights"
      · rw [if_pos hname] at h
        cases hc : impl tc.args with
        | error e =>
            rw [hc] at h
            obtain ⟨tc2, h2, h3⟩ := ih l h
            exact ⟨tc2, List.mem_cons_of_mem tc h2, h3⟩
        | options l2 =>
            rw [hc] at h
            simp only at h
            cases hr : (processToolCalls impl rest).2 with
            | some l3 =>
                rw [hr] at h
                simp only [Option.some.injEq] at h
                subst h
                obtain ⟨tc2, h2, h3⟩ := ih l3 hr
                exact ⟨tc2, List.mem_cons_of_mem tc h2, h3⟩
            | none =>
                rw [hr] at h
                simp only [Option.some.injEq] at h
                subst h
                exact ⟨tc, List.mem_cons_self tc rest, hname, hc⟩
      · rw [if_neg hname] at h
        obtain ⟨tc2, h2, h3⟩ := ih l h
        exact ⟨tc2, List.mem_cons_of_mem tc h2, h3⟩

/-- Calls not named search_flights are skipped without any output. -/
lemma processToolCalls_skip (impl : SearchArgs → SearchResult) :
    ∀ (tcs : List FToolCall),
      (∀ tc ∈ tcs, tc.name ≠ "search_flights") →
      processToolCalls impl tcs = ([], none) := by
  intro tcs
  induction tcs with
  | nil => intro _; rfl
  | cons tc rest ih =>
      intro h
      simp only [processToolCalls]
      rw [if_neg (h tc (List.mem_cons_self tc rest))]
      exact ih (fun tc2 h2 => h tc2 (List.mem_cons_of_mem tc h2))

end FAgent

/-- C1: at the human-input node a raw user text that exactly, case
sensitively, matches one of the quit tokens sets the finished flag and sends
the machine straight to the terminal node — the step is independent of the
reasoning oracle, so no further reasoning call is issued — and every run
whose user inputs contain no quit token never reaches the terminal node. -/
theorem c1_quit_token_terminal
    (llm llm2 : List FlightAgent.Msg → FlightAgent.Msg)
    (exec : FlightAgent.ToolCall → FlightAgent.Msg)
    (users : Nat → String) (c : FlightAgent.Config) (u : String) :
    (c.node = FlightAgent.Node.human → FlightAgent.isQuit u = true →
      (FlightAgent.stepFA llm exec u c).node = FlightAgent.Node.terminal ∧
      (FlightAgent.stepFA llm exec u c).state.finished = true ∧
      FlightAgent.stepFA llm exec u c = FlightAgent.stepFA llm2 exec u c) ∧
    ((∀ n, FlightAgent.isQuit (users n) = false) →
      ∀ n, (FlightAgent.runFA llm exec users n).node ≠ FlightAgent.Node.terminal) := by
  constructor
  · intro hn hq
    obtain ⟨node, st⟩ := c
    subst hn
    simp [FlightAgent.stepFA, FlightAgent.human_node,
      FlightAgent.maybe_exit_human_node, hq]
  · intro h n
    exact (FlightAgent.runFA_no_quit_invariant llm exec users h n).1

/-- Witness for C1 at concrete inputs: the quit token "quit" at the human
node reaches terminal, and a five-step run fed only "hello" does not. -/
theorem c1_witness :
    (FlightAgent.stepFA (fun _ => FlightAgent.Msg.ai "a" [])
        (fun _ => FlightAgent.Msg.ai "t" []) "quit"
        ⟨FlightAgent.Node.human, ⟨[], false⟩⟩).node = FlightAgent.Node.terminal ∧
    (FlightAgent.runFA (fun _ => FlightAgent.Msg.ai "a" [])
        (fun _ => FlightAgent.Msg.ai "t" []) (fun _ => "hello") 5).node ≠
      FlightAgent.Node.terminal :=
  ⟨((c1_quit_token_terminal (fun _ => FlightAgent.Msg.ai "a" [])
      (fun _ => FlightAgent.Msg.ai "a" []) (fun _ => FlightAgent.Msg.ai "t" [])
      (fun _ => "hello") ⟨FlightAgent.Node.human, ⟨[], false⟩⟩ "quit").1
      rfl (by decide)).1,
   (c1_quit_token_terminal (fun _ => FlightAgent.Msg.ai "a" [])
      (fun _ => FlightAgent.Msg.ai "a" []) (fun _ => FlightAgent.Msg.ai "t" [])
      (fun _ => "hello") ⟨FlightAgent.Node.human, ⟨[], false⟩⟩ "quit").2
      (fun _ => by decide) 5⟩

/-- C9: cancel_hold is idempotent against the order-deletion contract of the
external-interfaces section: both cancels of the same identifier report
success, the identifier is gone after the first, and the second is a no-op
on the backend held set. -/
theorem c9_cancel_hold_idempotent (held : List String) (fid : String) :
    (FlightAgent.cancel_hold held fid).1 = "Hold cancelled successfully" ∧
    (FlightAgent.cancel_hold (FlightAgent.cancel_hold held fid).2 fid).1 =
      "Hold cancelled successfully" ∧
    fid ∉ (FlightAgent.cancel_hold held fid).2 ∧
    (FlightAgent.cancel_hold (FlightAgent.cancel_hold held fid).2 fid).2 =
      (FlightAgent.cancel_hold held fid).2 := by
  refine ⟨rfl, rfl, ?_, ?_⟩
  · simp [FlightAgent.cancel_hold, FlightAgent.flight_orders_delete,
      List.mem_filter]
  · simp [FlightAgent.cancel_hold, FlightAgent.flight_orders_delete,
      List.filter_filter]

/-- C10: blank (empty or whitespace-only) user input through
process_streamlit_input returns the state untouched and never invokes the
graph, so no message is appended and no reasoning or tool call happens. -/
theorem c10_blank_input_noop
    (graph : FAgent.BookingState → Except Unit FAgent.BookingState)
    (u : String) (st : FAgent.BookingState) (h : strBlank u = true) :
    FAgent.process_streamlit_input graph u st = (FAgent.PSIResult.full st, false) := by
  unfold FAgent.process_streamlit_input
  rw [h]
  simp

/-- Witness for C10 at a concrete whitespace-only input and state. -/
theorem c10_witness :
    FAgent.process_streamlit_input (fun s => Except.ok s) "  "
        ⟨[FAgent.FMsg.ai "hi" []], [], [], none, false, false⟩ =
      (FAgent.PSIResult.full ⟨[FAgent.FMsg.ai "hi" []], [], [], none, false, false⟩,
       false) :=
  c10_blank_input_noop (fun s => Except.ok s) "  "
    ⟨[FAgent.FMsg.ai "hi" []], [], [], none, false, false⟩ (by decide)

/-- C4: whenever _chat_node reaches its reasoning call (the input assembly
did not raise) and the reasoning service fails, the node does not raise: it
appends exactly the synthetic fallback AI message, leaves the completed flag
(and every other field) untouched, and the history gains exactly one AI
message. -/
theorem c4_chat_node_fallback
    (llm : List FAgent.FMsg → Except Unit FAgent.FMsg)
    (st : FAgent.BookingState) (input : List FAgent.FMsg)
    (hin : FAgent.chatInput st = some input)
    (hfail : llm input = Except.error ()) :
    FAgent.chat_node llm st =
      some
        { st with
            messages :=
              st.messages ++ [FAgent.FMsg.ai "Let me check that for you..." []] } ∧
    (st.messages ++ [FAgent.FMsg.ai "Let me check that for you..." []]).countP
        FAgent.isAIMsg =
      st.messages.countP FAgent.isAIMsg + 1 := by
  constructor
  · unfold FAgent.chat_node
    rw [hin]
    simp only [hfail]
  · simp [List.countP_append, FAgent.isAIMsg]

/-- Witness for C4 at a concrete state and an always-failing reasoning
oracle. -/
theorem c4_witness :
    FAgent.chat_node (fun _ => Except.error ())
        ⟨[FAgent.FMsg.human "hi"], [], [], none, false, false⟩ =
      some
        ⟨[FAgent.FMsg.human "hi",
          FAgent.FMsg.ai "Let me check that for you..." []], [], [], none, false,
          false⟩ :=
  (c4_chat_node_fallback (fun _ => Except.error ())
    ⟨[FAgent.FMsg.human "hi"], [], [], none, false, false⟩
    [FAgent.FMsg.human "hi"] (by decide) rfl).1

/-- C3 counterexample: with the finished flag set and a latest AI message
without tool calls, flight_agent's post-reasoning router returns the human
route rather than terminal (the flag is never consulted there); and with the
completed flag clear and a latest AI message without tool calls, f_agent's
router returns the chat route — back to the reasoning node — rather than a
human-input route. -/
theorem c3_counterexample :
    FlightAgent.maybe_route_to_tools ⟨[FlightAgent.Msg.ai "hi" []], true⟩ =
      Except.ok FlightAgent.ToolsRoute.human ∧
    FAgent.route_based_on_tools
        ⟨[FAgent.FMsg.ai "hi" []], [], [], none, false, false⟩ =
      some FAgent.FRoute.chat := by
  constructor
  · rfl
  · rfl

/-- C3 as the code implements it: flight_agent's router ignores the
completion flag and routes on tool calls of the latest message alone (tools
when present, otherwise human); f_agent's router sends completed states to
END, otherwise a search_flights call on the latest message to the search
node, and anything else back to the chat (reasoning) node. -/
theorem c3_routing_decision (st : FlightAgent.FlightBookingState)
    (fst : FAgent.BookingState) (m : FlightAgent.Msg) :
    (st.messages.getLast? = some m →
      FlightAgent.maybe_route_to_tools st =
        Except.ok
          (if 0 < (FlightAgent.msgToolCalls m).length then
            FlightAgent.ToolsRoute.tools
          else FlightAgent.ToolsRoute.human)) ∧
    (fst.completed = true →
      FAgent.route_based_on_tools fst = some FAgent.FRoute.endRoute) ∧
    (∀ fm, fst.completed = false → fst.messages.getLast? = some fm →
      FAgent.route_based_on_tools fst =
        some
          (if FAgent.hasSearchToolCall fm then FAgent.FRoute.search
          else FAgent.FRoute.chat)) := by
  refine ⟨?_, ?_, ?_⟩
  · intro hm
    unfold FlightAgent.maybe_route_to_tools
    rw [hm]
    split <;> simp_all
    split <;> simp_all
  · intro hc
    unfold FAgent.route_based_on_tools
    rw [hc]
    simp
  · intro fm hc hm
    unfold FAgent.route_based_on_tools
    rw [hc, hm]
    simp

/-- Witness for C3 at concrete states: a latest message with a search tool
call routes to tools on the flight_agent side, a completed f_agent state
routes to END, and a search call routes to the search node. -/
theorem c3_witness :
    FlightAgent.maybe_route_to_tools
        ⟨[FlightAgent.Msg.ai "x" [⟨"search_flights", "t1"⟩]], false⟩ =
      Except.ok FlightAgent.ToolsRoute.tools ∧
    FAgent.route_based_on_tools ⟨[], [], [], none, false, true⟩ =
      some FAgent.FRoute.endRoute ∧
    FAgent.route_based_on_tools
        ⟨[FAgent.FMsg.ai "x"
            [⟨"search_flights", "t1", ⟨"a", "b", "c", 1, "ECONOMY"⟩⟩]], [], [],
          none, false, false⟩ =
      some FAgent.FRoute.search := by
  refine ⟨?_, ?_, ?_⟩
  · have h := (c3_routing_decision
      ⟨[FlightAgent.Msg.ai "x" [⟨"search_flights", "t1"⟩]], false⟩
      ⟨[], [], [], none, false, true⟩
      (FlightAgent.Msg.ai "x" [⟨"search_flights", "t1"⟩])).1 rfl
    simpa using h
  · exact (c3_routing_decision
      ⟨[FlightAgent.Msg.ai "x" [⟨"search_flights", "t1"⟩]], false⟩
      ⟨[], [], [], none, false, true⟩
      (FlightAgent.Msg.ai "x" [⟨"search_flights", "t1"⟩])).2.1 rfl
  · have h := (c3_routing_decision
      ⟨[FlightAgent.Msg.ai "x" [⟨"search_flights", "t1"⟩]], false⟩
      ⟨[FAgent.FMsg.ai "x"
          [⟨"search_flights", "t1", ⟨"a", "b", "c", 1, "ECONOMY"⟩⟩]], [], [],
        none, false, false⟩
      (FlightAgent.Msg.ai "x" [⟨"search_flights", "t1"⟩])).2.2
      (FAgent.FMsg.ai "x" [⟨"search_flights", "t1", ⟨"a", "b", "c", 1, "ECONOMY"⟩⟩])
      rfl rfl
    simpa using h

/-- C6: an all-error dispatch leaves flight_options untouched; in general
flight_options is either untouched or replaced wholesale by the options of a
successful search call; and under the real search tool a replacement is
always non-empty. -/
theorem c6_flight_options_frame
    (impl : FAgent.SearchArgs → FAgent.SearchResult)
    (env : FAgent.SearchOracles) (st st2 : FAgent.BookingState) :
    ((∀ tc ∈ FAgent.lastToolCalls st.messages, tc.name = "search_flights" →
        ∃ e, impl tc.args = FAgent.SearchResult.error e) →
      (FAgent.search_node impl st).flight_options = st.flight_options) ∧
    ((FAgent.search_node impl st).flight_options = st.flight_options ∨
      ∃ tc ∈ FAgent.lastToolCalls st.messages,
        tc.name = "search_flights" ∧
        impl tc.args =
          FAgent.SearchResult.options
            ((FAgent.search_node impl st).flight_options)) ∧
    ((FAgent.search_node (FAgent.search_flights env) st2).flight_options =
        st2.flight_options ∨
      (FAgent.search_node (FAgent.search_flights env) st2).flight_options ≠ []) := by
  have hfo : ∀ (im : FAgent.SearchArgs → FAgent.SearchResult)
      (s : FAgent.BookingState),
      (FAgent.search_node im s).flight_options =
        ((FAgent.processToolCalls im (FAgent.lastToolCalls s.messages)).2).getD
          s.flight_options := fun _ _ => rfl
  refine ⟨?_, ?_, ?_⟩
  · intro herr
    rw [hfo, FAgent.processToolCalls_snd_none impl _ herr]
    rfl
  · cases hsnd : (FAgent.processToolCalls impl (FAgent.lastToolCalls st.messages)).2 with
    | none => left; rw [hfo, hsnd]; rfl
    | some l =>
        right
        obtain ⟨tc, htc, hname, himpl⟩ :=
          FAgent.processToolCalls_snd_some impl _ l hsnd
        refine ⟨tc, htc, hname, ?_⟩
        rw [hfo, hsnd]
        exact himpl
  · cases hsnd : (FAgent.processToolCalls (FAgent.search_flights env)
        (FAgent.lastToolCalls st2.messages)).2 with
    | none => left; rw [hfo, hsnd]; rfl
    | some l =>
        right
        obtain ⟨tc, _, _, himpl⟩ :=
          FAgent.processToolCalls_snd_some (FAgent.search_flights env) _ l hsnd
        rw [hfo, hsnd]
        exact FAgent.search_flights_options_ne_nil env tc.args l himpl

/-- Witness for C6: an errored search at a concrete state leaves the stored
flight option in place. -/
theorem c6_witness :
    (FAgent.search_node (fun _ => FAgent.SearchResult.error "No flights found")
        ⟨[FAgent.FMsg.ai "x"
            [⟨"search_flights", "t1", ⟨"a", "b", "c", 1, "ECONOMY"⟩⟩]], [],
          [⟨"id1", "100", "USD", [], "Y"⟩], none, false, false⟩).flight_options =
      [⟨"id1", "100", "USD", [], "Y"⟩] :=
  (c6_flight_options_frame (fun _ => FAgent.SearchResult.error "No flights found")
    ⟨fun _ => none, fun _ => Except.error "x"⟩
    ⟨[FAgent.FMsg.ai "x" [⟨"search_flights", "t1", ⟨"a", "b", "c", 1, "ECONOMY"⟩⟩]],
      [], [⟨"id1", "100", "USD", [], "Y"⟩], none, false, false⟩
    ⟨[], [], [], none, false, false⟩).1
    (fun _ _ _ => ⟨"No flights found", rfl⟩)

/-- C7 counterexample: a successful search with two offers appends a
ToolMessage whose payload is only the offer count, which is not the raw
result the claim requires. -/
theorem c7_counterexample :
    (FAgent.processToolCalls
        (fun _ =>
          FAgent.SearchResult.options
            [⟨"1", "100.00", "USD", [⟨"AA", "100", "ADD", "CDG", "d", "a", "PT7H"⟩], "Y"⟩,
             ⟨"2", "200.00", "USD", [⟨"BB", "200", "ADD", "CDG", "d", "a", "PT8H"⟩], "Y"⟩])
        [⟨"search_flights", "t1", ⟨"ADD", "CDG", "2025-06-20", 1, "ECONOMY"⟩⟩]).1 =
      [FAgent.FMsg.tool (FAgent.ToolPayload.countObj 2) "search_flights" "t1"] ∧
    FAgent.ToolPayload.countObj 2 ≠
      FAgent.ToolPayload.rawList
        [⟨"1", "100.00", "USD", [⟨"AA", "100", "ADD", "CDG", "d", "a", "PT7H"⟩], "Y"⟩,
         ⟨"2", "200.00", "USD", [⟨"BB", "200", "ADD", "CDG", "d", "a", "PT8H"⟩], "Y"⟩] :=
  ⟨rfl, by decide⟩

/-- C7 as the code implements it: a successful search appends a ToolResult
carrying only the offer count (correlated to the request id) and replaces
flight_options wholesale; the digest AI message is built transiently into
the next reasoning call's input whenever flight options are on file and
their formatting succeeds (a stored option without segments instead crashes
the chat node before its try block). -/
theorem c7_success_sideeffects
    (impl : FAgent.SearchArgs → FAgent.SearchResult)
    (st st2 : FAgent.BookingState) (tc : FAgent.FToolCall)
    (l : List FAgent.FlightOption) :
    (FAgent.lastToolCalls st.messages = [tc] → tc.name = "search_flights" →
      impl tc.args = FAgent.SearchResult.options l →
      FAgent.search_node impl st =
        { st with
            messages :=
              st.messages ++
                [FAgent.FMsg.tool (FAgent.ToolPayload.countObj l.length) tc.name
                  tc.id],
            flight_options := l }) ∧
    (∀ ft input, st2.flight_options ≠ [] →
      FAgent.formatFlights st2.flight_options = some ft → ft ≠ "" →
      FAgent.chatInput st2 = some input →
      FAgent.FMsg.ai ("Flight options:\n" ++ ft) [] ∈ input) := by
  constructor
  · intro hlast hname himpl
    unfold FAgent.search_node
    rw [hlast]
    simp only [FAgent.processToolCalls, if_pos hname, himpl]
    rfl
  · intro ft input hne hfmt hft hin
    have hie : st2.flight_options.isEmpty = false := by
      cases hfo : st2.flight_options with
      | nil => exact absurd hfo hne
      | cons a l2 => rfl
    unfold FAgent.chatInput at hin
    rw [hie] at hin
    simp only [Bool.false_eq_true, if_false, hfmt, if_neg hft] at hin
    have hne2 : (st2.messages.filter (fun m => !m.contentBlank) ++
        [FAgent.FMsg.ai ("Flight options:\n" ++ ft) []]).isEmpty = false := by
      simp
    rw [hne2] at hin
    simp only [Bool.false_eq_true, if_false, Option.some.injEq] at hin
    subst hin
    exact List.mem_append_right _ (List.mem_singleton_self _)

/-- Witness for C7 at a concrete state: the appended ToolResult on a
successful one-offer search, and the transient digest at a state holding
that well-formed option. -/
theorem c7_witness :
    FAgent.search_node
        (fun _ =>
          FAgent.SearchResult.options
            [⟨"1", "100.00", "USD",
              [⟨"AA", "100", "ADD", "CDG", "d", "a", "PT7H"⟩], "Y"⟩])
        ⟨[FAgent.FMsg.ai "x"
            [⟨"search_flights", "t1", ⟨"a", "b", "c", 1, "ECONOMY"⟩⟩]], [], [],
          none, false, false⟩ =
      ⟨[FAgent.FMsg.ai "x"
          [⟨"search_flights", "t1", ⟨"a", "b", "c", 1, "ECONOMY"⟩⟩],
        FAgent.FMsg.tool (FAgent.ToolPayload.countObj 1) "search_flights" "t1"],
        [], [⟨"1", "100.00", "USD",
          [⟨"AA", "100", "ADD", "CDG", "d", "a", "PT7H"⟩], "Y"⟩], none, false,
        false⟩ ∧
    FAgent.FMsg.ai
        ("Flight options:\n" ++ "1. AA 100 (ADD→CDG) 100.00 USD") [] ∈
      [FAgent.FMsg.ai
        ("Flight options:\n" ++ "1. AA 100 (ADD→CDG) 100.00 USD") []] :=
  ⟨(c7_success_sideeffects
      (fun _ =>
        FAgent.SearchResult.options
          [⟨"1", "100.00", "USD",
            [⟨"AA", "100", "ADD", "CDG", "d", "a", "PT7H"⟩], "Y"⟩])
      ⟨[FAgent.FMsg.ai "x" [⟨"search_flights", "t1", ⟨"a", "b", "c", 1, "ECONOMY"⟩⟩]],
        [], [], none, false, false⟩
      ⟨[], [],
        [⟨"1", "100.00", "USD",
          [⟨"AA", "100", "ADD", "CDG", "d", "a", "PT7H"⟩], "Y"⟩], none, false,
        false⟩
      ⟨"search_flights", "t1", ⟨"a", "b", "c", 1, "ECONOMY"⟩⟩
      [⟨"1", "100.00", "USD",
        [⟨"AA", "100", "ADD", "CDG", "d", "a", "PT7H"⟩], "Y"⟩]).1 rfl rfl rfl,
   (c7_success_sideeffects
      (fun _ =>
        FAgent.SearchResult.options
          [⟨"1", "100.00", "USD",
            [⟨"AA", "100", "ADD", "CDG", "d", "a", "PT7H"⟩], "Y"⟩])
      ⟨[FAgent.FMsg.ai "x" [⟨"search_flights", "t1", ⟨"a", "b", "c", 1, "ECONOMY"⟩⟩]],
        [], [], none, false, false⟩
      ⟨[], [],
        [⟨"1", "100.00", "USD",
          [⟨"AA", "100", "ADD", "CDG", "d", "a", "PT7H"⟩], "Y"⟩], none, false,
        false⟩
      ⟨"search_flights", "t1", ⟨"a", "b", "c", 1, "ECONOMY"⟩⟩
      [⟨"1", "100.00", "USD",
        [⟨"AA", "100", "ADD", "CDG", "d", "a", "PT7H"⟩], "Y"⟩]).2
      "1. AA 100 (ADD→CDG) 100.00 USD"
      [FAgent.FMsg.ai ("Flight options:\n" ++ "1. AA 100 (ADD→CDG) 100.00 USD") []]
      (by decide) (by decide) (by decide) (by decide)⟩

/-- C8 counterexample: a ToolRequest named hold_reservation — not in
f_agent's registry — is dropped silently: the dispatch node returns the
state unchanged, with no error-payload ToolResult appended. -/
theorem c8_counterexample :
    FAgent.search_node (fun _ => FAgent.SearchResult.error "e")
        ⟨[FAgent.FMsg.ai "x"
            [⟨"hold_reservation", "call1", ⟨"a", "b", "c", 1, "ECONOMY"⟩⟩]], [],
          [], none, false, false⟩ =
      ⟨[FAgent.FMsg.ai "x"
          [⟨"hold_reservation", "call1", ⟨"a", "b", "c", 1, "ECONOMY"⟩⟩]], [],
        [], none, false, false⟩ := by
  decide

/-- C8 as the code implements it: f_agent's dispatch handles only requests
named search_flights — every other request is skipped with no ToolResult at
all — and each handled request's outcome is wrapped as a ToolMessage
correlated to the request id. -/
theorem c8_dispatch_contract
    (impl : FAgent.SearchArgs → FAgent.SearchResult)
    (st : FAgent.BookingState) (tc : FAgent.FToolCall)
    (rest : List FAgent.FToolCall) :
    ((∀ tc2 ∈ FAgent.lastToolCalls st.messages, tc2.name ≠ "search_flights") →
      FAgent.search_node impl st = st) ∧
    (tc.name = "search_flights" →
      ∃ p, ((FAgent.processToolCalls impl (tc :: rest)).1).head? =
        some (FAgent.FMsg.tool p tc.name tc.id)) := by
  constructor
  · intro hskip
    have h := FAgent.processToolCalls_skip impl _ hskip
    unfold FAgent.search_node
    rw [h]
    cases st
    simp
  · intro hname
    cases himpl : impl tc.args with
    | error e =>
        exact ⟨FAgent.ToolPayload.errorObj e, by
          simp only [FAgent.processToolCalls, if_pos hname, himpl]
          rfl⟩
    | options l =>
        exact ⟨FAgent.ToolPayload.countObj l.length, by
          simp only [FAgent.processToolCalls, if_pos hname, himpl]
          rfl⟩

/-- Witness for C8 at concrete inputs: a confirm_booking request is skipped
leaving the state unchanged, and a handled search request's first outbound
message is a ToolMessage correlated to its id. -/
theorem c8_witness :
    FAgent.search_node (fun _ => FAgent.SearchResult.error "e")
        ⟨[FAgent.FMsg.ai "y"
            [⟨"confirm_booking", "c9", ⟨"a", "b", "c", 1, "ECONOMY"⟩⟩]], [],
          [], none, false, true⟩ =
      ⟨[FAgent.FMsg.ai "y"
          [⟨"confirm_booking", "c9", ⟨"a", "b", "c", 1, "ECONOMY"⟩⟩]], [],
        [], none, false, true⟩ ∧
    ∃ p, ((FAgent.processToolCalls (fun _ => FAgent.SearchResult.error "e")
        [⟨"search_flights", "t7", ⟨"a", "b", "c", 1, "ECONOMY"⟩⟩]).1).head? =
      some (FAgent.FMsg.tool p "search_flights" "t7") :=
  ⟨(c8_dispatch_contract (fun _ => FAgent.SearchResult.error "e")
      ⟨[FAgent.FMsg.ai "y" [⟨"confirm_booking", "c9", ⟨"a", "b", "c", 1, "ECONOMY"⟩⟩]],
        [], [], none, false, true⟩
      ⟨"search_flights", "t7", ⟨"a", "b", "c", 1, "ECONOMY"⟩⟩ []).1
      (by intro tc2 h2 heq; simp [FAgent.lastToolCalls] at h2; simp [h2] at heq),
   (c8_dispatch_contract (fun _ => FAgent.SearchResult.error "e")
      ⟨[FAgent.FMsg.ai "y" [⟨"confirm_booking", "c9", ⟨"a", "b", "c", 1, "ECONOMY"⟩⟩]],
        [], [], none, false, true⟩
      ⟨"search_flights", "t7", ⟨"a", "b", "c", 1, "ECONOMY"⟩⟩ []).2 rfl⟩

/-- C5 counterexample: an empty backend result yields the error text "No
flights found" — capitalized, not the claimed lowercase "no flights found" —
and the other search tool, in flight_agent.py, returns the raw empty data
with no error object at all. -/
theorem c5_counterexample :
    FAgent.search_flights ⟨fun _ => some "ADD", fun _ => Except.ok []⟩
        ⟨"Addis Ababa", "Paris", "2025-06-20", 1, "ECONOMY"⟩ =
      FAgent.SearchResult.error "No flights found" ∧
    FAgent.SearchResult.error "No flights found" ≠
      FAgent.SearchResult.error "no flights found" ∧
    FlightAgent.search_flights_raw (fun _ => Except.ok []) "ADD" "CDG"
        "2025-06-20" 1 none = FlightAgent.RawSearchResult.data [] :=
  ⟨rfl, by decide, rfl⟩

/-- C5 as the code implements it, for FlightTools.search_flights: an
unresolved origin or destination yields the error "Invalid airport codes"
with no backend search call; an empty backend result yields the error "No
flights found"; and a success carries at most 3 options (the cap is the max
parameter of the one search request, assuming the backend honours it) and is
never empty. -/
theorem c5_search_tool_contract (env : FAgent.SearchOracles)
    (a : FAgent.SearchArgs)
    (hmax : ∀ q l, env.flight_offers_search q = Except.ok l →
      l.length ≤ q.maxResults) :
    (env.airport_code a.origin = none ∨ env.airport_code a.destination = none →
      FAgent.search_flights_run env a =
        (FAgent.SearchResult.error "Invalid airport codes", 0)) ∧
    (∀ oc dc, env.airport_code a.origin = some oc →
      env.airport_code a.destination = some dc →
      env.flight_offers_search (FAgent.buildQuery a oc dc) = Except.ok [] →
      FAgent.search_flights_run env a =
        (FAgent.SearchResult.error "No flights found", 1)) ∧
    (∀ l, FAgent.search_flights env a = FAgent.SearchResult.options l →
      l.length ≤ 3 ∧ l ≠ []) := by
  refine ⟨?_, ?_, ?_⟩
  · intro hcase
    unfold FAgent.search_flights_run
    rcases hcase with h | h
    · rw [h]
    · rw [h]
      cases env.airport_code a.origin <;> rfl
  · intro oc dc ho hd hempty
    simp [FAgent.search_flights_run, ho, hd, hempty]
  · intro l hl
    refine ⟨?_, FAgent.search_flights_options_ne_nil env a l hl⟩
    unfold FAgent.search_flights FAgent.search_flights_run at hl
    cases ho : env.airport_code a.origin with
    | none => simp [ho] at hl
    | some oc =>
        cases hd : env.airport_code a.destination with
        | none => simp [ho, hd] at hl
        | some dc =>
            simp only [ho, hd] at hl
            cases hs : env.flight_offers_search (FAgent.buildQuery a oc dc) with
            | error e => simp [hs] at hl
            | ok offers =>
                simp only [hs] at hl
                cases offers with
                | nil => simp at hl
                | cons o os =>
                    cases hfmt : FAgent.formatFlightResults (o :: os) with
                    | none => simp [hfmt] at hl
                    | some l2 =>
                        simp only [hfmt] at hl
                        simp only [FAgent.SearchResult.options.injEq] at hl
                        subst hl
                        have hlen := FAgent.formatFlightResults_length (o :: os) l2 hfmt
                        have hm := hmax _ _ hs
                        simp only [FAgent.buildQuery] at hm
                        omega

/-- Witness for C5 at a concrete environment: both lookups fail, so the
invalid-codes error comes back with zero backend search calls. -/
theorem c5_witness :
    FAgent.search_flights_run ⟨fun _ => none, fun _ => Except.ok []⟩
        ⟨"Nowhere", "Paris", "2025-06-20", 1, "ECONOMY"⟩ =
      (FAgent.SearchResult.error "Invalid airport codes", 0) :=
  (c5_search_tool_contract ⟨fun _ => none, fun _ => Except.ok []⟩
    ⟨"Nowhere", "Paris", "2025-06-20", 1, "ECONOMY"⟩
    (fun q l h => by
      cases h
      simp)).1 (Or.inl rfl)

/-- C2 counterexample: the implemented limiter never resets its counter when
a window elapses — after calls separated by far more than the 60-second
window the counter reads 2 where the claimed fixed-window policy reads 1 —
and a caller that reaches the cap waits a full extra 60 seconds rather than
the remainder of a window: on requests arriving 61 seconds apart the
implemented limiter admits the eleventh call at 731 while the fixed-window
policy admits it at 671. -/
theorem c2_counterexample :
    (FAgent.rlRunState ⟨0, 0⟩ [5, 100]).call_count = 2 ∧
    (FAgent.fwRunState ⟨0, 0, 0⟩ [5, 100]).count = 1 ∧
    (FAgent.rlAdmits (List.replicate 11 61)).getLast? = some 731 ∧
    (FAgent.fwAdmits (List.replicate 11 61)).getLast? = some 671 := by
  refine ⟨by decide, by decide, by decide, by decide⟩

/-- C2 as the code implements it: consecutive admitted calls are spaced by
at least REQUEST_DELAY; at most MAX_REQUESTS_PER_MINUTE calls are admitted
within any closed 60-second window; and the counter resets only when a
caller arrives with the counter at the cap — that caller waits the
min-interval and then a full 60 seconds — while below the cap the counter
just increments. -/
theorem c2_rate_limiter_bounds (gs : List Nat) :
    (∀ i, i + 1 < (FAgent.rlAdmits gs).length →
      (FAgent.rlAdmits gs).getD i 0 + FAgent.REQUEST_DELAY ≤
        (FAgent.rlAdmits gs).getD (i + 1) 0) ∧
    (∀ T, ((Finset.range (FAgent.rlAdmits gs).length).filter
        (fun i => T ≤ (FAgent.rlAdmits gs).getD i 0 ∧
          (FAgent.rlAdmits gs).getD i 0 ≤ T + 60)).card ≤
      FAgent.MAX_REQUESTS_PER_MINUTE) ∧
    (∀ s r, FAgent.MAX_REQUESTS_PER_MINUTE ≤ s.call_count →
      (FAgent.rlStep s r).1 =
        max r (s.last_call_time + FAgent.REQUEST_DELAY) + 60 ∧
      (FAgent.rlStep s r).2.call_count = 1) ∧
    (∀ s r, s.call_count < FAgent.MAX_REQUESTS_PER_MINUTE →
      (FAgent.rlStep s r).2.call_count = s.call_count + 1) := by
  refine ⟨?_, ?_, ?_, ?_⟩
  · intro i hi
    exact FAgent.rlRun_spacing gs ⟨0, 0⟩ i hi
  · intro T
    exact FAgent.rlAdmits_window_cap gs T
  · intro s r h
    constructor
    · unfold FAgent.rlStep
      rw [if_pos h]
    · unfold FAgent.rlStep
      rw [if_pos h]
  · intro s r h
    exact FAgent.rlStep_no_reset s r h

/-- Witness for C2 at concrete inputs: spacing between the first two admits
of a two-request run, the window cap on that run, and the reset behaviour at
a capped state. -/
theorem c2_witness :
    (FAgent.rlAdmits [0, 0]).getD 0 0 + FAgent.REQUEST_DELAY ≤
      (FAgent.rlAdmits [0, 0]).getD 1 0 ∧
    ((Finset.range (FAgent.rlAdmits [0, 0]).length).filter
        (fun i => 0 ≤ (FAgent.rlAdmits [0, 0]).getD i 0 ∧
          (FAgent.rlAdmits [0, 0]).getD i 0 ≤ 0 + 60)).card ≤
      FAgent.MAX_REQUESTS_PER_MINUTE ∧
    (FAgent.rlStep ⟨0, 10⟩ 0).2.call_count = 1 :=
  ⟨(c2_rate_limiter_bounds [0, 0]).1 0 (by decide),
   (c2_rate_limiter_bounds [0, 0]).2.1 0,
   ((c2_rate_limiter_bounds [0, 0]).2.2.1 ⟨0, 10⟩ 0 (by decide)).2⟩
